import Mathlib

/-!
Verification of the campus-assistant query layer and response normalizer.

This development shallowly embeds the deterministic core of the
smart-campus-agent backend:

* the three store tables (`events`, `exams`, `placements`) as lists of records,
* the four read operations of `app/tools/data_tools.py`
  (`get_events`, `get_today_events`, `get_exams`, `get_placements`),
* the response normalization / error recovery of
  `CampusAgent.process_query` in `app/agent/campus_agent.py`.

SQL semantics are embedded explicitly:

* SQLite `TEXT` comparison (`date >= ?`, `ORDER BY`) is binary memcmp order,
  which on UTF-8 agrees with codepoint-lexicographic order; it is modelled by
  `charListLe` on the codepoint lists of strings.
* SQLite `LIKE` (used with `%...%` patterns) is modelled by `likeMatch`,
  including the `%` and `_` metacharacters, and its default ASCII case
  folding is modelled by lowering both sides with `sqlLower` (the ASCII
  `LOWER` of SQLite).
* `SELECT ... ORDER BY date ASC, time ASC` is modelled by filtering the table
  and merge-sorting with the `(date, time)` lexicographic key.
* Python truthiness tests on optional string/int parameters
  (`if event_date:`, `if semester and ...`) are modelled by `strTruthy` and
  explicit `0`-tests.

The Python `date.today()` / `timedelta` computation happens outside the query
layer; the queries only receive the resulting ISO-8601 strings, so the
embedding passes `today` and `futureDate` (standing for
`today + timedelta(days=days_ahead)`) as explicit string parameters.
-/

namespace CampusSpec

/-- A Python value, as far as the chat layer is concerned: `None`, strings,
integers, lists and (insertion-ordered) dicts with string keys. -/
inductive PyVal : Type where
  | vNone : PyVal
  | vStr : String → PyVal
  | vInt : Int → PyVal
  | vList : List PyVal → PyVal
  | vDict : List (String × PyVal) → PyVal

/-- Python `d.get(key)` on an insertion-ordered dict modelled as an association
list: the value at the first matching key, if any. -/
def dictGet (entries : List (String × PyVal)) (key : String) : Option PyVal :=
  match entries with
  | [] => none
  | (k, v) :: rest => if k == key then some v else dictGet rest key

mutual

/-- Python `repr` of a `PyVal` (simplified single-quote string quoting). -/
def pyRepr : PyVal → String
  | .vNone => "None"
  | .vStr s => "'" ++ s ++ "'"
  | .vInt n => toString n
  | .vList xs => "[" ++ String.intercalate ", " (pyReprList xs) ++ "]"
  | .vDict es => "\x7b" ++ String.intercalate ", " (pyReprDict es) ++ "\x7d"

/-- The `repr` of each element of a Python list. -/
def pyReprList : List PyVal → List String
  | [] => []
  | x :: xs => pyRepr x :: pyReprList xs

/-- The `repr` of each `key: value` entry of a Python dict. -/
def pyReprDict : List (String × PyVal) → List String
  | [] => []
  | (k, v) :: es => ("'" ++ k ++ "': " ++ pyRepr v) :: pyReprDict es

end

/-- Python `str()`: a string is returned as-is, everything else is its
`repr`. -/
def pyStr : PyVal → String
  | .vStr s => s
  | v => pyRepr v

/-- Python truthiness of an optional string parameter: `None` and the empty
string are falsy. -/
def strTruthy : Option String → Bool
  | none => false
  | some s => !s.isEmpty

/-- Codepoint-lexicographic `≤` on lists of characters.  On UTF-8 encoded
text this is exactly SQLite's default `BINARY` (memcmp) collation, under
which the backend compares and orders its ISO-8601 `date` strings and its
free-text `time` strings. -/
def charListLe : List Char → List Char → Bool
  | [], _ => true
  | _ :: _, [] => false
  | a :: as, b :: bs =>
    if a.toNat = b.toNat then charListLe as bs
    else decide (a.toNat < b.toNat)

/-- SQLite string `≤` (binary collation) on the two strings' codepoints. -/
def strLe (a b : String) : Bool := charListLe a.data b.data

/-- The SQL condition `date >= today AND date <= futureDate` used by every
days-ahead window, both endpoints included. -/
def inWindow (today futureDate d : String) : Bool :=
  strLe today d && strLe d futureDate

/-- The ASCII upper-to-lower case table used by SQLite's `LOWER()` and by
the case folding of its `LIKE` operator. -/
def asciiPairs : List (Char × Char) :=
  [('A', 'a'), ('B', 'b'), ('C', 'c'), ('D', 'd'), ('E', 'e'), ('F', 'f'),
   ('G', 'g'), ('H', 'h'), ('I', 'i'), ('J', 'j'), ('K', 'k'), ('L', 'l'),
   ('M', 'm'), ('N', 'n'), ('O', 'o'), ('P', 'p'), ('Q', 'q'), ('R', 'r'),
   ('S', 's'), ('T', 't'), ('U', 'u'), ('V', 'v'), ('W', 'w'), ('X', 'x'),
   ('Y', 'y'), ('Z', 'z')]

/-- ASCII lower-casing of one character; non-ASCII-uppercase characters are
left unchanged. -/
def asciiLower (c : Char) : Char :=
  match asciiPairs.find? (fun p => p.1 == c) with
  | some p => p.2
  | none => c

/-- SQLite `LOWER(s)`: ASCII-only lower-casing. -/
def sqlLower (s : String) : String := String.mk (s.data.map asciiLower)

/-- SQLite `LIKE` pattern matching: `%` matches any (possibly empty)
sequence, `_` matches exactly one character, anything else matches itself.
Case folding is handled by the caller (`sqlLike`). -/
def likeMatch : List Char → List Char → Bool
  | [], t => t.isEmpty
  | p :: ps, [] => p == '%' && likeMatch ps []
  | p :: ps, c :: ts =>
    if p == '%' then likeMatch ps (c :: ts) || likeMatch (p :: ps) ts
    else if p == '_' then likeMatch ps ts
    else p == c && likeMatch ps ts
termination_by p t => p.length + t.length

/-- SQLite `text LIKE pattern` with the operator's default ASCII-insensitive
case folding.  `LOWER(x) LIKE LOWER(y)` (used for exam subjects and
placement companies) and a bare `x LIKE y` (used for placement departments)
both have these semantics on ASCII data. -/
def sqlLike (text pattern : String) : Bool :=
  likeMatch (sqlLower pattern).data (sqlLower text).data

/-- Boolean substring containment on character lists (`n` occurs
contiguously in `h`), used to state the spec-level "substring match". -/
def isSub : List Char → List Char → Bool
  | n, [] => n.isEmpty
  | n, c :: ts => n.isPrefixOf (c :: ts) || isSub n ts

/-- Holds when `s` contains no SQL `LIKE` metacharacter (`%` or `_`). -/
def noWild (s : List Char) : Bool :=
  s.all (fun c => !(c == '%') && !(c == '_'))

/-- A row of the `events` table, in schema column order. -/
structure EventRow where
  id : Int
  title : String
  category : String
  date : String
  time : String
  venue : String
  organizer : String
  description : Option String
deriving DecidableEq

/-- A row of the `exams` table, in schema column order. -/
structure ExamRow where
  id : Int
  exam_name : String
  subject : String
  department : String
  semester : Int
  date : String
  time : String
  venue : String
deriving DecidableEq

/-- A row of the `placements` table, in schema column order.  The
`department` column stores a comma-joined list of department codes. -/
structure PlacementRow where
  id : Int
  company : String
  role : String
  department : String
  date : String
  time : String
  venue : String
deriving DecidableEq

/-- The `ORDER BY date ASC, time ASC` key: dates compared first (binary
string order), times compared as strings among equal dates. -/
def dtLe (d1 t1 d2 t2 : String) : Bool :=
  if d1 = d2 then charListLe t1.data t2.data else charListLe d1.data d2.data

/-- Sort key for event rows. -/
def eventLe (a b : EventRow) : Bool := dtLe a.date a.time b.date b.time

/-- Sort key for exam rows. -/
def examLe (a b : ExamRow) : Bool := dtLe a.date a.time b.date b.time

/-- Sort key for placement rows. -/
def placementLe (a b : PlacementRow) : Bool := dtLe a.date a.time b.date b.time

/-- The `WHERE` clause built by `get_events`: exact date match when a truthy
`event_date` is supplied, otherwise the `[today, today+days_ahead]` window;
plus the category condition, added only when `category` is truthy and one of
the two recognized values. -/
def eventPred (event_date category : Option String) (today futureDate : String)
    (e : EventRow) : Bool :=
  (if strTruthy event_date then e.date == event_date.getD ""
   else inWindow today futureDate e.date)
  && (if strTruthy category
        && (category.getD "" == "cultural" || category.getD "" == "technical")
      then e.category == category.getD "" else true)

/-- Operation `get_events` of `data_tools.py`: filtered, then `ORDER BY date, time`. -/
def get_events (event_date category : Option String) (today futureDate : String)
    (events : List EventRow) : List EventRow :=
  (events.filter (eventPred event_date category today futureDate)).mergeSort eventLe

/-- The row selection `get_today_events` performs over an `events` table:
`WHERE date = ?` with today's date, no other condition and no `ORDER BY`,
so rows keep store order.  Unlike every other operation, `get_today_events`
reads this table from its own hard-coded database file
(`backend/app/campus.db`, not the `data/campus.db` that
`get_db_connection` opens); the full operation, including the error raised
when that file has no `events` table, is `get_today_events` below. -/
def get_today_events_rows (today : String) (events : List EventRow) : List EventRow :=
  events.filter (fun e => e.date == today)

/-- Python check `department in ['CSE', 'ECE', 'ME', 'CE', 'IT', 'EEE']`. -/
def deptValid (d : String) : Bool :=
  d == "CSE" || d == "ECE" || d == "ME" || d == "CE" || d == "IT" || d == "EEE"

/-- An optional filter argument: `None` adds no condition, a supplied value
adds the condition built from it. -/
def optFilter : Option α → (α → Bool) → Bool
  | none, _ => true
  | some x, f => f x

/-- The `WHERE` clause built by `get_exams`: mandatory days-ahead window;
department equality only for truthy in-enum values; semester equality only
for truthy values in `[1, 8]`; `LOWER(subject) LIKE LOWER('%…%')` for truthy
subjects. -/
def examPred (department : Option String) (semester : Option Int)
    (subject : Option String) (today futureDate : String) (e : ExamRow) : Bool :=
  inWindow today futureDate e.date
  && optFilter department
      (fun d => if !d.isEmpty && deptValid d then e.department == d else true)
  && optFilter semester
      (fun s => if !(s == 0) && decide (1 ≤ s) && decide (s ≤ 8)
                then e.semester == s else true)
  && optFilter subject
      (fun sub => if !sub.isEmpty then sqlLike e.subject ("%" ++ sub ++ "%")
                  else true)

/-- Operation `get_exams` of `data_tools.py`: filtered, then `ORDER BY date, time`. -/
def get_exams (department : Option String) (semester : Option Int)
    (subject : Option String) (today futureDate : String)
    (exams : List ExamRow) : List ExamRow :=
  (exams.filter (examPred department semester subject today futureDate)).mergeSort examLe

/-- The `WHERE` clause built by `get_placements`: mandatory days-ahead
window; `department LIKE '%…%'` and `LOWER(company) LIKE LOWER('%…%')` for
truthy arguments. -/
def placementPred (department company : Option String) (today futureDate : String)
    (p : PlacementRow) : Bool :=
  inWindow today futureDate p.date
  && optFilter department
      (fun d => if !d.isEmpty then sqlLike p.department ("%" ++ d ++ "%")
                else true)
  && optFilter company
      (fun c => if !c.isEmpty then sqlLike p.company ("%" ++ c ++ "%")
                else true)

/-- The sorted row selection of `get_placements`, before the department
post-processing. -/
def get_placements_rows (department company : Option String)
    (today futureDate : String) (placements : List PlacementRow) : List PlacementRow :=
  (placements.filter (placementPred department company today futureDate)).mergeSort placementLe

/-- Python `[d.strip() for d in s.split(',')]`. -/
def splitTrim (s : String) : List String :=
  (s.splitOn ",").map (fun x => x.trim)

/-- Conversion for the nullable `description` column (`None`-aware). -/
def pyOptStr : Option String → PyVal
  | none => .vNone
  | some s => .vStr s

/-- Python `dict(row)` for a `SELECT *` events row: all eight schema columns
in order. -/
def eventDict (e : EventRow) : List (String × PyVal) :=
  [("id", .vInt e.id), ("title", .vStr e.title), ("category", .vStr e.category),
   ("date", .vStr e.date), ("time", .vStr e.time), ("venue", .vStr e.venue),
   ("organizer", .vStr e.organizer), ("description", pyOptStr e.description)]

/-- Python `dict(row)` for the seven-column projection selected by
`get_today_events` (`description` is not selected). -/
def todayEventDict (e : EventRow) : List (String × PyVal) :=
  [("id", .vInt e.id), ("title", .vStr e.title), ("category", .vStr e.category),
   ("date", .vStr e.date), ("time", .vStr e.time), ("venue", .vStr e.venue),
   ("organizer", .vStr e.organizer)]

/-- Python `dict(row)` for a `SELECT *` exams row. -/
def examDict (e : ExamRow) : List (String × PyVal) :=
  [("id", .vInt e.id), ("exam_name", .vStr e.exam_name), ("subject", .vStr e.subject),
   ("department", .vStr e.department), ("semester", .vInt e.semester),
   ("date", .vStr e.date), ("time", .vStr e.time), ("venue", .vStr e.venue)]

/-- Python `dict(row)` for a placements row after the post-processing step
`result['department'] = [d.strip() for d in result['department'].split(',')]`:
the `department` key keeps its column position but now holds a list. -/
def placementDict (p : PlacementRow) : List (String × PyVal) :=
  [("id", .vInt p.id), ("company", .vStr p.company), ("role", .vStr p.role),
   ("department", .vList ((splitTrim p.department).map PyVal.vStr)),
   ("date", .vStr p.date), ("time", .vStr p.time), ("venue", .vStr p.venue)]

/-- Operation `get_events` as the list of dicts the caller receives. -/
def get_events_dicts (event_date category : Option String) (today futureDate : String)
    (events : List EventRow) : List (List (String × PyVal)) :=
  (get_events event_date category today futureDate events).map eventDict

/-- The dict list a successful `get_today_events` run produces from the
`events` table of the database file it opens. -/
def get_today_events_dicts (today : String) (events : List EventRow) :
    List (List (String × PyVal)) :=
  (get_today_events_rows today events).map todayEventDict

/-- Operation `get_today_events` of `data_tools.py`, including its storage
boundary: it opens the hard-coded path `backend/app/campus.db` (computed at
`data_tools.py` from `__file__`, distinct from the `data/campus.db` every
other operation reaches through `get_db_connection`).  `appDbEvents` is the
`events` table of that file, `none` when the file or table does not exist —
which is the shipped state, since nothing in the repository ever creates or
writes `backend/app/campus.db` (`init_database` and all admin writes go to
`data/campus.db`).  With the table missing, the `SELECT` raises
`sqlite3.OperationalError: no such table: events`, and the function's
`except` block logs and re-raises it. -/
def get_today_events (today : String) (appDbEvents : Option (List EventRow)) :
    Except String (List (List (String × PyVal))) :=
  match appDbEvents with
  | none => .error "no such table: events"
  | some events => .ok (get_today_events_dicts today events)

/-- Operation `get_exams` as the list of dicts the caller receives. -/
def get_exams_dicts (department : Option String) (semester : Option Int)
    (subject : Option String) (today futureDate : String)
    (exams : List ExamRow) : List (List (String × PyVal)) :=
  (get_exams department semester subject today futureDate exams).map examDict

/-- Operation `get_placements` as the list of dicts the caller receives (rows
sorted,
then department strings parsed into lists). -/
def get_placements (department company : Option String) (today futureDate : String)
    (placements : List PlacementRow) : List (List (String × PyVal)) :=
  (get_placements_rows department company today futureDate placements).map placementDict

/-- The three tables of the store. -/
structure Store where
  events : List EventRow
  exams : List ExamRow
  placements : List PlacementRow
deriving DecidableEq

/-- One fully-applied invocation of a query-layer operation. -/
inductive QueryCall : Type where
  | listEvents (event_date category : Option String) (today futureDate : String)
  | listTodayEvents (today : String)
  | listExams (department : Option String) (semester : Option Int)
      (subject : Option String) (today futureDate : String)
  | listPlacements (department company : Option String) (today futureDate : String)

/-- Run one read-only query against a store; the returned store is the
post-state (the operations only `SELECT`, so it is unchanged).  For
`listTodayEvents` the events list stands for the table of whichever
database file the operation reads: read-only-ness and repeatability do not
depend on which file that is. -/
def runQuery (q : QueryCall) (st : Store) :
    List (List (String × PyVal)) × Store :=
  match q with
  | .listEvents event_date category today futureDate =>
    (get_events_dicts event_date category today futureDate st.events, st)
  | .listTodayEvents today =>
    (get_today_events_dicts today st.events, st)
  | .listExams department semester subject today futureDate =>
    (get_exams_dicts department semester subject today futureDate st.exams, st)
  | .listPlacements department company today futureDate =>
    (get_placements department company today futureDate st.placements, st)

/-- Method `CampusAgent.process_query`: the agent run either raises (modelled as
`Except.error` carrying `str(e)`) or produces a value `output`; the result
is always the two-key dict `{"message": …, "data": …}` built by the
normalization code, and in the error case the apology message. -/
def process_query (runResult : Except String PyVal) : List (String × PyVal) :=
  match runResult with
  | .error err =>
    [("message", .vStr ("I apologize, but I encountered an error: " ++ err)),
     ("data", .vNone)]
  | .ok output =>
    match output with
    | .vDict entries =>
      [("message", (dictGet entries "message").getD (.vStr "")),
       ("data", (dictGet entries "data").getD .vNone)]
    | _ => [("message", .vStr (pyStr output)), ("data", .vNone)]

/-- Modelled from the spec: the spec-side `list_exams` filter description
(§4.1) against which the implementation is compared.  The subject filter is
stated there as a plain case-insensitive substring match; everything else is
word-for-word the same filtering as the implementation. -/
def specExamPred (department : Option String) (semester : Option Int)
    (subject : Option String) (today futureDate : String) (e : ExamRow) : Bool :=
  inWindow today futureDate e.date
  && optFilter department
      (fun d => if deptValid d then e.department == d else true)
  && optFilter semester
      (fun s => if decide (1 ≤ s) && decide (s ≤ 8) then e.semester == s else true)
  && optFilter subject
      (fun sub => isSub (sqlLower sub).data (sqlLower e.subject).data)

/-- Modelled from the spec: `list_exams` with the spec-side filters,
sorted by `(date, time)`. -/
def spec_exams (department : Option String) (semester : Option Int)
    (subject : Option String) (today futureDate : String)
    (exams : List ExamRow) : List ExamRow :=
  (exams.filter (specExamPred department semester subject today futureDate)).mergeSort examLe

/-- Concrete event row used for witnesses (no stored description). -/
def sampleEvent : EventRow :=
  ⟨1, "AI Workshop", "technical", "2025-06-03", "10:00 AM", "Seminar Hall A",
   "CSE Department", none⟩

/-- Concrete event row with a stored description, dated 2025-06-01. -/
def sampleDescribedEvent : EventRow :=
  ⟨2, "Tech Talk on AI", "technical", "2025-06-01", "10:00 AM", "Seminar Hall A",
   "CSE Department", some "Industry expert session"⟩

/-- Concrete exam row used for concrete inputs. -/
def sampleExam : ExamRow :=
  ⟨1, "Mid Semester Examination", "Data Structures", "CSE", 3, "2025-06-04",
   "9:30 AM", "Block B - Room 204"⟩

/-- Concrete placement row whose stored department string contains `CSE`. -/
def samplePlacement : PlacementRow :=
  ⟨1, "Infosys", "System Engineer", "CSE,IT", "2025-06-03", "9:00 AM",
   "Placement Cell"⟩

/-! ## Order lemmas for the `(date, time)` sort key -/

theorem charToNat_inj {a b : Char} (h : a.toNat = b.toNat) : a = b := by
  have h2 := Char.ofNat_toNat a
  rw [h, Char.ofNat_toNat] at h2
  exact h2.symm

theorem stringData_inj {a b : String} (h : a.data = b.data) : a = b :=
  congrArg String.mk h

theorem charListLe_refl : ∀ l : List Char, charListLe l l = true
  | [] => rfl
  | _ :: as => by simp [charListLe, charListLe_refl as]

theorem charListLe_total : ∀ l1 l2 : List Char,
    (charListLe l1 l2 || charListLe l2 l1) = true
  | [], _ => by simp [charListLe]
  | _ :: _, [] => by simp [charListLe]
  | a :: as, b :: bs => by
    by_cases h : a.toNat = b.toNat
    · simp only [charListLe, h, if_pos rfl, ite_true]
      exact charListLe_total as bs
    · have h2 : ¬ b.toNat = a.toNat := fun hh => h hh.symm
      simp only [charListLe, if_neg h, if_neg h2, Bool.or_eq_true, decide_eq_true_eq]
      omega

theorem charListLe_trans : ∀ l1 l2 l3 : List Char,
    charListLe l1 l2 = true → charListLe l2 l3 = true → charListLe l1 l3 = true
  | [], _, _, _, _ => rfl
  | _ :: _, [], _, h1, _ => by simp [charListLe] at h1
  | _ :: _, _ :: _, [], _, h2 => by simp [charListLe] at h2
  | a :: as, b :: bs, c :: cs, h1, h2 => by
    simp only [charListLe] at h1 h2 ⊢
    by_cases hab : a.toNat = b.toNat
    · rw [if_pos hab] at h1
      by_cases hbc : b.toNat = c.toNat
      · rw [if_pos hbc] at h2
        rw [if_pos (hab.trans hbc)]
        exact charListLe_trans as bs cs h1 h2
      · rw [if_neg hbc] at h2
        have h2' : b.toNat < c.toNat := of_decide_eq_true h2
        rw [if_neg (by omega)]
        exact decide_eq_true (by omega)
    · rw [if_neg hab] at h1
      have h1' : a.toNat < b.toNat := of_decide_eq_true h1
      by_cases hbc : b.toNat = c.toNat
      · rw [if_pos hbc] at h2
        rw [if_neg (by omega)]
        exact decide_eq_true (by omega)
      · rw [if_neg hbc] at h2
        have h2' : b.toNat < c.toNat := of_decide_eq_true h2
        rw [if_neg (by omega)]
        exact decide_eq_true (by omega)

theorem charListLe_antisymm : ∀ l1 l2 : List Char,
    charListLe l1 l2 = true → charListLe l2 l1 = true → l1 = l2
  | [], [], _, _ => rfl
  | [], _ :: _, _, h2 => by simp [charListLe] at h2
  | _ :: _, [], h1, _ => by simp [charListLe] at h1
  | a :: as, b :: bs, h1, h2 => by
    simp only [charListLe] at h1 h2
    by_cases hab : a.toNat = b.toNat
    · rw [if_pos hab] at h1
      rw [if_pos hab.symm] at h2
      rw [charToNat_inj hab, charListLe_antisymm as bs h1 h2]
    · rw [if_neg hab] at h1
      rw [if_neg (fun hh => hab hh.symm)] at h2
      have h1' : a.toNat < b.toNat := of_decide_eq_true h1
      have h2' : b.toNat < a.toNat := of_decide_eq_true h2
      omega

theorem dtLe_trans {d1 t1 d2 t2 d3 t3 : String}
    (h1 : dtLe d1 t1 d2 t2 = true) (h2 : dtLe d2 t2 d3 t3 = true) :
    dtLe d1 t1 d3 t3 = true := by
  unfold dtLe at h1 h2 ⊢
  by_cases e12 : d1 = d2
  · by_cases e23 : d2 = d3
    · rw [if_pos e12] at h1
      rw [if_pos e23] at h2
      rw [if_pos (e12.trans e23)]
      exact charListLe_trans _ _ _ h1 h2
    · rw [if_neg e23] at h2
      rw [if_neg (fun hh => e23 (e12.symm.trans hh)), e12]
      exact h2
  · by_cases e23 : d2 = d3
    · rw [if_neg e12] at h1
      rw [if_neg (fun hh => e12 (hh.trans e23.symm)), ← e23]
      exact h1
    · rw [if_neg e12] at h1
      rw [if_neg e23] at h2
      by_cases e13 : d1 = d3
      · exfalso
        rw [← e13] at h2
        exact e12 (stringData_inj (charListLe_antisymm _ _ h1 h2))
      · rw [if_neg e13]
        exact charListLe_trans _ _ _ h1 h2

theorem dtLe_total (d1 t1 d2 t2 : String) :
    (dtLe d1 t1 d2 t2 || dtLe d2 t2 d1 t1) = true := by
  unfold dtLe
  by_cases e : d1 = d2
  · rw [if_pos e, if_pos e.symm]
    exact charListLe_total _ _
  · rw [if_neg e, if_neg (fun hh => e hh.symm)]
    exact charListLe_total _ _

/-- Unpacking the sort key: the dates are non-decreasing, and among equal
dates the time strings are non-decreasing. -/
theorem dtLe_spec {d1 t1 d2 t2 : String} (h : dtLe d1 t1 d2 t2 = true) :
    charListLe d1.data d2.data = true ∧
      (d1 = d2 → charListLe t1.data t2.data = true) := by
  unfold dtLe at h
  by_cases e : d1 = d2
  · rw [if_pos e] at h
    rw [e]
    exact ⟨charListLe_refl _, fun _ => h⟩
  · rw [if_neg e] at h
    exact ⟨h, fun hh => absurd hh e⟩

theorem eventLe_trans (a b c : EventRow) :
    eventLe a b → eventLe b c → eventLe a c :=
  fun h1 h2 => dtLe_trans h1 h2

theorem eventLe_total (a b : EventRow) : eventLe a b || eventLe b a :=
  dtLe_total _ _ _ _

theorem examLe_trans (a b c : ExamRow) :
    examLe a b → examLe b c → examLe a c :=
  fun h1 h2 => dtLe_trans h1 h2

theorem examLe_total (a b : ExamRow) : examLe a b || examLe b a :=
  dtLe_total _ _ _ _

theorem placementLe_trans (a b c : PlacementRow) :
    placementLe a b → placementLe b c → placementLe a c :=
  fun h1 h2 => dtLe_trans h1 h2

theorem placementLe_total (a b : PlacementRow) : placementLe a b || placementLe b a :=
  dtLe_total _ _ _ _

/-! ## `LIKE` and substring lemmas -/

theorem likeMatch_percent : ∀ t : List Char, likeMatch ['%'] t = true
  | [] => by simp [likeMatch]
  | _ :: ts => by simp [likeMatch, likeMatch_percent ts]

theorem noWild_cons {a : Char} {as : List Char} (h : noWild (a :: as) = true) :
    ((a == '%') = false) ∧ ((a == '_') = false) ∧ noWild as = true := by
  simp only [noWild, List.all_cons, Bool.and_eq_true, Bool.not_eq_true'] at h
  exact ⟨h.1.1, h.1.2, h.2⟩

theorem likeMatch_prefixPercent : ∀ n t : List Char, noWild n = true →
    likeMatch (n ++ ['%']) t = n.isPrefixOf t
  | [], t, _ => by
    simp [likeMatch_percent t, List.nil_append]
  | a :: n', [], h => by
    obtain ⟨h1, _, _⟩ := noWild_cons h
    simp [likeMatch, h1]
  | a :: n', c :: ts, h => by
    obtain ⟨h1, h2, h3⟩ := noWild_cons h
    simp only [List.cons_append, likeMatch, h1, h2, Bool.false_eq_true,
      if_false, List.isPrefixOf_cons₂]
    rw [likeMatch_prefixPercent n' ts h3]

theorem likeMatch_wrap (n : List Char) (hn : noWild n = true) :
    ∀ t : List Char, likeMatch ('%' :: (n ++ ['%'])) t = isSub n t
  | [] => by
    have hp := likeMatch_prefixPercent n [] hn
    simp only [likeMatch, isSub, hp]
    cases n <;> simp [List.isPrefixOf]
  | c :: ts => by
    have hp := likeMatch_prefixPercent n (c :: ts) hn
    simp only [likeMatch, hp, isSub, likeMatch_wrap n hn ts]
    rw [if_pos (show (('%' : Char) == '%') = true from rfl)]

theorem isPrefixOf_map (f : Char → Char) : ∀ n h : List Char,
    n.isPrefixOf h = true → (n.map f).isPrefixOf (h.map f) = true
  | [], _, _ => by simp
  | _ :: _, [], h1 => by simp [List.isPrefixOf] at h1
  | a :: as, b :: bs, h1 => by
    simp only [List.isPrefixOf_cons₂, Bool.and_eq_true, beq_iff_eq] at h1
    simp only [List.map_cons, List.isPrefixOf_cons₂, Bool.and_eq_true, beq_iff_eq]
    exact ⟨by rw [h1.1], isPrefixOf_map f as bs h1.2⟩

theorem isSub_map (f : Char → Char) : ∀ n h : List Char,
    isSub n h = true → isSub (n.map f) (h.map f) = true
  | n, [], h1 => by
    have hn : n = [] := by simpa [isSub] using h1
    rw [hn]
    rfl
  | n, c :: ts, h1 => by
    simp only [isSub, Bool.or_eq_true] at h1
    simp only [List.map_cons, isSub, Bool.or_eq_true]
    rcases h1 with h1 | h1
    · exact Or.inl (isPrefixOf_map f n (c :: ts) h1)
    · exact Or.inr (isSub_map f n ts h1)

theorem isSub_nil_left : ∀ h : List Char, isSub [] h = true
  | [] => rfl
  | _ :: _ => by simp [isSub, List.isPrefixOf]

theorem asciiLower_cases (c : Char) :
    asciiLower c = c ∨ asciiLower c ∈ asciiPairs.map Prod.snd := by
  unfold asciiLower
  cases hf : asciiPairs.find? (fun p => p.1 == c) with
  | none => exact Or.inl rfl
  | some p => exact Or.inr (List.mem_map_of_mem Prod.snd (List.mem_of_find?_eq_some hf))

theorem asciiLower_noWild {c : Char} (h1 : (c == '%') = false)
    (h2 : (c == '_') = false) :
    ((asciiLower c == '%') = false) ∧ ((asciiLower c == '_') = false) := by
  rcases asciiLower_cases c with h | h
  · rw [h]
    exact ⟨h1, h2⟩
  · have hall : ∀ v ∈ asciiPairs.map Prod.snd,
        ((v == '%') = false) ∧ ((v == '_') = false) := by decide
    exact hall _ h

theorem noWild_map_asciiLower : ∀ l : List Char,
    noWild l = true → noWild (l.map asciiLower) = true
  | [], _ => rfl
  | a :: as, h => by
    obtain ⟨h1, h2, h3⟩ := noWild_cons h
    obtain ⟨g1, g2⟩ := asciiLower_noWild h1 h2
    simp only [List.map_cons, noWild, List.all_cons, Bool.and_eq_true,
      Bool.not_eq_true', g1, g2, true_and]
    exact noWild_map_asciiLower as h3

theorem sqlLower_data (s : String) : (sqlLower s).data = s.data.map asciiLower := rfl

theorem sqlLower_append (a b : String) :
    (sqlLower (a ++ b)).data = (sqlLower a).data ++ (sqlLower b).data := by
  simp [sqlLower_data, String.data_append]

/-- The implementation's `%…%` `LIKE` filter coincides with plain
case-insensitive substring containment whenever the filter value has no
`LIKE` metacharacter. -/
theorem sqlLike_eq_isSub (text sub : String) (hw : noWild sub.data = true) :
    sqlLike text ("%" ++ sub ++ "%") =
      isSub (sqlLower sub).data (sqlLower text).data := by
  have hlow : noWild (sqlLower sub).data = true := by
    rw [sqlLower_data]
    exact noWild_map_asciiLower _ hw
  have hdata : (sqlLower ("%" ++ sub ++ "%")).data =
      '%' :: ((sqlLower sub).data ++ ['%']) := by
    rw [sqlLower_append, sqlLower_append]
    rfl
  rw [sqlLike, hdata, likeMatch_wrap _ hlow]

/-! ## Small helpers about the embedded operations -/

theorem strTruthy_of_ne {d : String} (h : d ≠ "") : strTruthy (some d) = true := by
  simp only [strTruthy, Bool.not_eq_true']
  cases he : d.isEmpty
  · rfl
  · exact absurd ((String.isEmpty_iff d).mp he) h

/-- The sequence produced by `get_events` is sorted under the merge-sort
key. -/
theorem get_events_sortedKey (event_date category : Option String)
    (today futureDate : String) (events : List EventRow) :
    (get_events event_date category today futureDate events).Pairwise
      (fun a b => eventLe a b = true) :=
  List.sorted_mergeSort eventLe_trans eventLe_total _

/-- The sequence produced by `get_exams` is sorted under the merge-sort
key. -/
theorem get_exams_sortedKey (department : Option String) (semester : Option Int)
    (subject : Option String) (today futureDate : String) (exams : List ExamRow) :
    (get_exams department semester subject today futureDate exams).Pairwise
      (fun a b => examLe a b = true) :=
  List.sorted_mergeSort examLe_trans examLe_total _

/-- The row sequence underlying `get_placements` is sorted under the
merge-sort key. -/
theorem get_placements_rows_sortedKey (department company : Option String)
    (today futureDate : String) (placements : List PlacementRow) :
    (get_placements_rows department company today futureDate placements).Pairwise
      (fun a b => placementLe a b = true) :=
  List.sorted_mergeSort placementLe_trans placementLe_total _

theorem dictGet_placement_date (p : PlacementRow) :
    dictGet (placementDict p) "date" = some (.vStr p.date) := rfl

theorem dictGet_placement_time (p : PlacementRow) :
    dictGet (placementDict p) "time" = some (.vStr p.time) := rfl

theorem dictGet_placement_department (p : PlacementRow) :
    dictGet (placementDict p) "department" =
      some (.vList ((splitTrim p.department).map PyVal.vStr)) := rfl

/-! ## Claims -/

/-- C9: the query-layer operations are read-only and deterministic: running
any of the four operations leaves the store unchanged, and running the same
fully-applied call twice in sequence (the second against the post-state of
the first) yields exactly the same ordered result and state. -/
theorem claim_C9 (q : QueryCall) (st : Store) :
    (runQuery q st).2 = st ∧ runQuery q ((runQuery q st).2) = runQuery q st := by
  cases q <;> exact ⟨rfl, rfl⟩

/-- C10: every mapping returned by `list_today_events` has exactly the keys
`id, title, category, date, time, venue, organizer` — in particular no
`description` key, even when the stored event has a description — while
`list_events` returns all stored columns including `description`. -/
theorem claim_C10 (today : String) (event_date category : Option String)
    (t f : String) (events : List EventRow) :
    ((get_today_events_dicts today events).all
      (fun d => d.map Prod.fst ==
        ["id", "title", "category", "date", "time", "venue", "organizer"])) = true
    ∧ ((get_events_dicts event_date category t f events).all
      (fun d => d.map Prod.fst ==
        ["id", "title", "category", "date", "time", "venue", "organizer",
         "description"])) = true := by
  constructor
  · rw [get_today_events_dicts, List.all_eq_true]
    intro d hd
    obtain ⟨e, _, rfl⟩ := List.mem_map.mp hd
    rfl
  · rw [get_events_dicts, List.all_eq_true]
    intro d hd
    obtain ⟨e, _, rfl⟩ := List.mem_map.mp hd
    rfl

/-- C3: whenever the agent run raises (any error detail `err`), the chat
operation returns the dict whose `message` is the apology string with the
error detail appended and whose `data` is `None`; `process_query` is a total
function into result dicts, so the failure is never re-raised to the
caller. -/
theorem claim_C3 (err : String) :
    process_query (.error err) =
      [("message", .vStr ("I apologize, but I encountered an error: " ++ err)),
       ("data", .vNone)] := rfl

/-- C7: the response normalizer maps a dict output to
`{message: output.get("message", ""), data: output.get("data")}` and any
non-dict output to `{message: str(output), data: None}`. -/
theorem claim_C7 (output : PyVal) :
    (∀ entries, output = .vDict entries →
      process_query (.ok output) =
        [("message", (dictGet entries "message").getD (.vStr "")),
         ("data", (dictGet entries "data").getD .vNone)])
    ∧ ((∀ entries, output ≠ .vDict entries) →
      process_query (.ok output) =
        [("message", .vStr (pyStr output)), ("data", .vNone)]) := by
  constructor
  · intro entries h
    rw [h]
    rfl
  · intro h
    cases output with
    | vDict entries => exact absurd rfl (h entries)
    | vNone => rfl
    | vStr s => rfl
    | vInt n => rfl
    | vList xs => rfl

/-- Witness for C7 at a concrete dict output and a concrete string
output. -/
theorem claim_C7_witness :
    process_query (.ok (.vDict [("message", .vStr "hello"), ("data", .vNone)])) =
      [("message",
        (dictGet [("message", PyVal.vStr "hello"), ("data", PyVal.vNone)]
          "message").getD (.vStr "")),
       ("data",
        (dictGet [("message", PyVal.vStr "hello"), ("data", PyVal.vNone)]
          "data").getD .vNone)]
    ∧ process_query (.ok (.vStr "plain")) =
      [("message", .vStr (pyStr (.vStr "plain"))), ("data", .vNone)] := by
  constructor
  · exact (claim_C7 (.vDict [("message", .vStr "hello"), ("data", .vNone)])).1 _ rfl
  · exact (claim_C7 (.vStr "plain")).2 (fun entries h => PyVal.noConfusion h)

/-- C8: the sequences returned by `list_events`, `list_exams` and
`list_placements` are sorted in non-decreasing order by the `(date, time)`
pair: dates (ISO-8601 strings) are non-decreasing in binary string order,
and among equal dates the free-text `time` strings are non-decreasing in
the same lexicographic (not chronological) string order.  For placements
the property is stated on the returned dicts through their `date` and
`time` entries. -/
theorem claim_C8 (event_date category department pdep pcomp subject : Option String)
    (semester : Option Int) (t1 f1 t2 f2 t3 f3 : String)
    (events : List EventRow) (exams : List ExamRow)
    (placements : List PlacementRow) :
    (get_events event_date category t1 f1 events).Pairwise
      (fun a b => charListLe a.date.data b.date.data = true ∧
        (a.date = b.date → charListLe a.time.data b.time.data = true))
    ∧ (get_exams department semester subject t2 f2 exams).Pairwise
      (fun a b => charListLe a.date.data b.date.data = true ∧
        (a.date = b.date → charListLe a.time.data b.time.data = true))
    ∧ (get_placements pdep pcomp t3 f3 placements).Pairwise
      (fun d1 d2 => ∃ da ta db tb : String,
        dictGet d1 "date" = some (.vStr da) ∧ dictGet d1 "time" = some (.vStr ta) ∧
        dictGet d2 "date" = some (.vStr db) ∧ dictGet d2 "time" = some (.vStr tb) ∧
        charListLe da.data db.data = true ∧
        (da = db → charListLe ta.data tb.data = true)) := by
  refine ⟨?_, ?_, ?_⟩
  · exact (get_events_sortedKey event_date category t1 f1 events).imp
      (fun h => dtLe_spec h)
  · exact (get_exams_sortedKey department semester subject t2 f2 exams).imp
      (fun h => dtLe_spec h)
  · rw [get_placements]
    refine List.Pairwise.map placementDict (fun a b hab => ?_)
      (get_placements_rows_sortedKey pdep pcomp t3 f3 placements)
    exact ⟨a.date, a.time, b.date, b.time, dictGet_placement_date a,
      dictGet_placement_time a, dictGet_placement_date b,
      dictGet_placement_time b, (dtLe_spec hab).1, (dtLe_spec hab).2⟩

/-- C6: with no explicit date argument, every record returned by
`list_events` has `today <= date <= today + days_ahead` (both endpoints
included, string comparison); with an explicit (non-empty) date, the results
are filtered to exactly that date and the days-ahead window parameters have
no effect on the result. -/
theorem claim_C6 (category : Option String) (today futureDate : String)
    (events : List EventRow) :
    (∀ e ∈ get_events none category today futureDate events,
      strLe today e.date = true ∧ strLe e.date futureDate = true)
    ∧ (∀ d : String, d ≠ "" →
      (∀ e ∈ get_events (some d) category today futureDate events, e.date = d)
      ∧ (∀ t f : String, get_events (some d) category t f events =
          get_events (some d) category today futureDate events)) := by
  constructor
  · intro e he
    rw [get_events, List.mem_mergeSort] at he
    have hp := (List.mem_filter.mp he).2
    simp only [eventPred, strTruthy, Bool.false_eq_true, if_false, inWindow,
      Bool.and_eq_true] at hp
    exact hp.1
  · intro d hd
    have htr : strTruthy (some d) = true := strTruthy_of_ne hd
    constructor
    · intro e he
      rw [get_events, List.mem_mergeSort] at he
      have hp := (List.mem_filter.mp he).2
      simp only [eventPred, htr, if_true, Option.getD_some, Bool.and_eq_true,
        beq_iff_eq] at hp
      exact hp.1
    · intro t f
      rw [get_events, get_events]
      congr 1
      apply List.filter_congr
      intro e _
      simp only [eventPred, htr, if_true]

/-- Witness for C6: a store with one event dated 2025-06-03, queried with
`today = 2025-06-01` and window end 2025-06-08. -/
theorem claim_C6_witness :
    (strLe "2025-06-01" sampleEvent.date = true ∧
      strLe sampleEvent.date "2025-06-08" = true)
    ∧ sampleEvent.date = "2025-06-03" := by
  have hmem : sampleEvent ∈
      get_events none none "2025-06-01" "2025-06-08" [sampleEvent] := by
    rw [get_events, List.mem_mergeSort]
    exact List.mem_filter.mpr ⟨List.mem_singleton.mpr rfl, by decide⟩
  have hmem2 : sampleEvent ∈
      get_events (some "2025-06-03") none "2025-06-01" "2025-06-08" [sampleEvent] := by
    rw [get_events, List.mem_mergeSort]
    exact List.mem_filter.mpr ⟨List.mem_singleton.mpr rfl, by decide⟩
  exact ⟨(claim_C6 none "2025-06-01" "2025-06-08" [sampleEvent]).1 sampleEvent hmem,
    ((claim_C6 none "2025-06-01" "2025-06-08" [sampleEvent]).2 "2025-06-03"
      (by decide)).1 sampleEvent hmem2⟩

/-- C4: for a valid category value (`cultural` or `technical`) every record
returned by `list_events` carries exactly that category; for any other
string the category filter is silently dropped and the result is identical
to the unfiltered call (no error is possible: the operation is total). -/
theorem claim_C4 (c : String) (event_date : Option String)
    (today futureDate : String) (events : List EventRow) :
    (c = "cultural" ∨ c = "technical" →
      ∀ e ∈ get_events event_date (some c) today futureDate events,
        e.category = c)
    ∧ (c ≠ "cultural" → c ≠ "technical" →
      get_events event_date (some c) today futureDate events =
        get_events event_date none today futureDate events) := by
  constructor
  · intro hc e he
    rw [get_events, List.mem_mergeSort] at he
    have hp := (List.mem_filter.mp he).2
    have htr : strTruthy (some c) = true := by
      rcases hc with rfl | rfl <;> decide
    have hin : ((c == "cultural") || (c == "technical")) = true := by
      rcases hc with rfl | rfl <;> decide
    simp only [eventPred, Option.getD_some, htr, hin, Bool.and_self, if_true,
      Bool.and_eq_true, beq_iff_eq] at hp
    exact hp.2
  · intro h1 h2
    have hc1 : (c == "cultural") = false := by
      simp only [beq_eq_false_iff_ne, ne_eq]
      exact h1
    have hc2 : (c == "technical") = false := by
      simp only [beq_eq_false_iff_ne, ne_eq]
      exact h2
    rw [get_events, get_events]
    congr 1
    apply List.filter_congr
    intro e _
    simp only [eventPred, Option.getD_some, hc1, hc2, Bool.or_self,
      Bool.and_false, strTruthy, Bool.false_and, Bool.false_eq_true, if_false]

/-- Witness for C4: the valid value `technical` restricts categories, and
the invalid value `sports` leaves the query unfiltered. -/
theorem claim_C4_witness :
    (∀ e ∈ get_events none (some "technical") "2025-06-01" "2025-06-08"
        [sampleEvent], e.category = "technical")
    ∧ get_events none (some "sports") "2025-06-01" "2025-06-08" [sampleEvent] =
        get_events none none "2025-06-01" "2025-06-08" [sampleEvent] :=
  ⟨(claim_C4 "technical" none "2025-06-01" "2025-06-08" [sampleEvent]).1
      (Or.inr rfl),
   (claim_C4 "sports" none "2025-06-01" "2025-06-08" [sampleEvent]).2
      (by decide) (by decide)⟩

/-- C2: `list_placements(department="CSE")` returns (at least) every stored
placement inside the date window whose stored department string contains
`CSE` as a substring, and every returned record's `department` entry is the
comma-split, whitespace-trimmed list parsed from the stored string. -/
theorem claim_C2 (today futureDate : String) (placements : List PlacementRow) :
    (∀ p ∈ placements, strLe today p.date = true →
      strLe p.date futureDate = true →
      isSub "CSE".data p.department.data = true →
      placementDict p ∈
        get_placements (some "CSE") none today futureDate placements)
    ∧ (∀ d ∈ get_placements (some "CSE") none today futureDate placements,
      ∃ p, p ∈ placements ∧ d = placementDict p ∧
        dictGet d "department" =
          some (.vList ((splitTrim p.department).map PyVal.vStr))) := by
  constructor
  · intro p hp h1 h2 hsub
    have hlike : sqlLike p.department ("%" ++ "CSE" ++ "%") = true := by
      rw [sqlLike_eq_isSub _ _ (by decide), sqlLower_data, sqlLower_data]
      exact isSub_map asciiLower _ _ hsub
    have hne : (!("CSE".isEmpty)) = true := by decide
    have hpred : placementPred (some "CSE") none today futureDate p = true := by
      simp only [placementPred, optFilter, inWindow, h1, h2, hne, hlike,
        if_true, Bool.and_self, Bool.and_true, Bool.true_and]
    rw [get_placements, get_placements_rows]
    exact List.mem_map_of_mem placementDict
      (List.mem_mergeSort.mpr (List.mem_filter.mpr ⟨hp, hpred⟩))
  · intro d hd
    rw [get_placements] at hd
    obtain ⟨p, hp, rfl⟩ := List.mem_map.mp hd
    refine ⟨p, ?_, rfl, dictGet_placement_department p⟩
    rw [get_placements_rows] at hp
    exact (List.mem_filter.mp (List.mem_mergeSort.mp hp)).1

/-- Witness for C2: a store with one placement whose stored department
string is `CSE,IT`; its parsed record is returned for the `CSE` query. -/
theorem claim_C2_witness :
    placementDict samplePlacement ∈
      get_placements (some "CSE") none "2025-06-01" "2025-07-01"
        [samplePlacement] :=
  (claim_C2 "2025-06-01" "2025-07-01" [samplePlacement]).1 samplePlacement
    (List.mem_singleton.mpr rfl) (by decide) (by decide) (by decide)

/-- C1: the claim is the spec's regression property, and the code breaks it
by construction (code bug).  `get_today_events` opens its own hard-coded
database file `backend/app/campus.db`, which nothing in the repository ever
creates or writes, so in the shipped program its `SELECT` raises
`no such table: events` and the `except` block re-raises — while
`list_events(date=today)` reads `data/campus.db` and returns the stored
record.  And even if that second file held the very same events table, the
returned record would still differ from the `list_events` record, lacking
the `description` key.  Both divergences are evaluated here at the concrete
failing input: today = 2025-06-01, the data database holding one described
event dated today, and the app database table absent (`none`). -/
theorem claim_C1 :
    get_today_events "2025-06-01" none = .error "no such table: events"
    ∧ get_events_dicts (some "2025-06-01") none "2025-06-01" "2025-06-08"
        [sampleDescribedEvent] = [eventDict sampleDescribedEvent]
    ∧ get_today_events "2025-06-01" (some [sampleDescribedEvent]) =
        .ok [todayEventDict sampleDescribedEvent]
    ∧ todayEventDict sampleDescribedEvent ≠ eventDict sampleDescribedEvent := by
  refine ⟨rfl, ?_, rfl, ?_⟩
  · have hfil : [sampleDescribedEvent].filter
        (eventPred (some "2025-06-01") none "2025-06-01" "2025-06-08") =
        [sampleDescribedEvent] := by decide
    rw [get_events_dicts, get_events, hfil, List.mergeSort_singleton]
    rfl
  · intro h
    have hlen := congrArg List.length h
    simp [todayEventDict, eventDict] at hlen

theorem deptValid_isEmpty {d : String} (hv : deptValid d = true) :
    (!d.isEmpty) = true := by
  simp only [deptValid, Bool.or_eq_true, beq_iff_eq] at hv
  rcases hv with ((((rfl | rfl) | rfl) | rfl) | rfl) | rfl <;> decide

theorem likeMatch_allPercent : ∀ t : List Char,
    likeMatch ['%', '%', '%'] t = true
  | [] => by simp [likeMatch]
  | c :: ts => by
    simp only [likeMatch, likeMatch_allPercent ts]
    rw [if_pos (show (('%' : Char) == '%') = true from rfl)]
    simp

/-- Counterexample to C5 as stated: the subject filter is not a substring
match for values containing `LIKE` metacharacters.  With subject `"%"`,
the implementation returns the stored exam (the `%` acts as a wildcard),
while a case-insensitive substring filter (`spec_exams`) returns nothing,
since `%` does not occur in the stored subject. -/
theorem claim_C5_counterexample :
    get_exams none none (some "%") "2025-06-01" "2025-07-01" [sampleExam] ≠
      spec_exams none none (some "%") "2025-06-01" "2025-07-01" [sampleExam] := by
  have hlike : sqlLike sampleExam.subject ("%" ++ "%" ++ "%") = true := by
    rw [sqlLike]
    have hpat : (sqlLower ("%" ++ "%" ++ "%")).data = ['%', '%', '%'] := by decide
    rw [hpat]
    exact likeMatch_allPercent _
  have hwin : inWindow "2025-06-01" "2025-07-01" sampleExam.date = true := by
    decide
  have hpred : examPred none none (some "%") "2025-06-01" "2025-07-01"
      sampleExam = true := by
    simp only [examPred, optFilter, hwin, Bool.true_and, Bool.and_true]
    rw [if_pos (show (!("%".isEmpty)) = true from by decide)]
    exact hlike
  have hfil : [sampleExam].filter
      (examPred none none (some "%") "2025-06-01" "2025-07-01") =
      [sampleExam] := by
    simp [List.filter_cons, hpred]
  have hcode : get_exams none none (some "%") "2025-06-01" "2025-07-01"
      [sampleExam] = [sampleExam] := by
    rw [get_exams, hfil, List.mergeSort_singleton]
  have hspecfil : [sampleExam].filter
      (specExamPred none none (some "%") "2025-06-01" "2025-07-01") = [] := by
    decide
  have hspec : spec_exams none none (some "%") "2025-06-01" "2025-07-01"
      [sampleExam] = [] := by
    rw [spec_exams, hspecfil, List.mergeSort_nil]
  intro h
  rw [hcode, hspec] at h
  exact List.cons_ne_nil _ _ h

/-- C5 (amended): `list_exams` filters exactly as the spec describes —
records restricted to the inclusive `[today, today+days_ahead]` window,
department by exact match only when the value is one of the six enum codes,
semester by exact match only when the value lies in `[1, 8]`, and subject
by case-insensitive substring match — provided the subject value contains
no SQL `LIKE` metacharacter (`%` or `_`); for such values the
implementation's `LIKE '%…%'` filter and the spec's substring filter
coincide. -/
theorem claim_C5 (department : Option String) (semester : Option Int)
    (subject : Option String) (today futureDate : String) (exams : List ExamRow)
    (hs : ∀ s : String, subject = some s → noWild s.data = true) :
    get_exams department semester subject today futureDate exams =
      spec_exams department semester subject today futureDate exams := by
  rw [get_exams, spec_exams]
  congr 1
  apply List.filter_congr
  intro e _
  have hdep : optFilter department
      (fun d => if !d.isEmpty && deptValid d then e.department == d else true) =
      optFilter department
      (fun d => if deptValid d then e.department == d else true) := by
    cases department with
    | none => rfl
    | some d =>
      simp only [optFilter]
      by_cases hv : deptValid d = true
      · simp [hv, deptValid_isEmpty hv]
      · have hv' : deptValid d = false := by
          revert hv
          cases deptValid d <;> simp
        simp [hv']
  have hsem : optFilter semester
      (fun s => if !(s == 0) && decide (1 ≤ s) && decide (s ≤ 8)
                then e.semester == s else true) =
      optFilter semester
      (fun s => if decide (1 ≤ s) && decide (s ≤ 8)
                then e.semester == s else true) := by
    cases semester with
    | none => rfl
    | some s =>
      simp only [optFilter]
      by_cases h1 : (1 : Int) ≤ s
      · by_cases h2 : s ≤ 8
        · have h0 : (s == 0) = false := by
            rw [beq_eq_false_iff_ne]
            omega
          simp [h0, h1, h2]
        · simp [h2]
      · simp [h1]
  have hsub : optFilter subject
      (fun sub => if !sub.isEmpty then sqlLike e.subject ("%" ++ sub ++ "%")
                  else true) =
      optFilter subject
      (fun sub => isSub (sqlLower sub).data (sqlLower e.subject).data) := by
    cases subject with
    | none => rfl
    | some sub =>
      have hw : noWild sub.data = true := hs sub rfl
      simp only [optFilter]
      by_cases he : sub.isEmpty = true
      · have hsubEmpty : sub = "" := (String.isEmpty_iff sub).mp he
        subst hsubEmpty
        simp [isSub_nil_left, show "".isEmpty = true from rfl,
          show (sqlLower "").data = ([] : List Char) from rfl]
      · have he' : sub.isEmpty = false := by
          revert he
          cases sub.isEmpty <;> simp
        simp [he', sqlLike_eq_isSub e.subject sub hw]
  simp only [examPred, specExamPred, hdep, hsem, hsub]

/-- Witness for C5 (amended) at a wildcard-free subject and a concrete
store. -/
theorem claim_C5_witness :
    get_exams none none (some "data") "2025-06-01" "2025-07-01" [sampleExam] =
      spec_exams none none (some "data") "2025-06-01" "2025-07-01"
        [sampleExam] :=
  claim_C5 none none (some "data") "2025-06-01" "2025-07-01" [sampleExam]
    (fun s hs => by cases hs; decide)

end CampusSpec
